import Mathlib

/-!
Verification of the UGC Ad Director Assistant generation pipeline.

The definitions below are a shallow embedding of the application's core
orchestration code:

* `qcLoop` embeds the bounded opening-frame generation / validation retry
  loop of `handleGenerateAd` (App component).
* `generateVideoRun` embeds the message/polling behaviour of
  `generateVideo` (geminiService).
* `getWavHeader` / `makeWav` embed the WAV container synthesis of
  `getWavHeader` / `generateSpeech` (geminiService).
* `runApp` embeds the whole `handleGenerateAd` run including the
  catch/finally error handling, and `submitForm` embeds the form-level
  product-image guard of `InputForm.handleSubmit`.

The remote generative service is modelled as an oracle (`Provider`): one
field per service entry point, giving the response the service returns to
each call.  Calls that the code awaits and that may reject are modelled
with `Except String`; the per-attempt responses of the image and
validation calls are indexed by the attempt number, and the video
operation's `done` flags are summarised by the number of polls that report
not-done before completion (the code's loop terminates exactly when the
job eventually reports done).
-/

/-- Encoded image record (`ImageData` in types.ts). -/
structure ImageData where
  base64 : String
  mimeType : String
deriving DecidableEq

/-- Ad concept produced by `generateAdConcept` (`AdConcept` in types.ts). -/
structure AdConcept where
  adTitle : String
  adIdea : String
  adDescription : String
  openingFramePrompt : String
deriving DecidableEq

/-- QC verdict produced by `validateImage` (`ImageValidationResult`). -/
structure ImageValidationResult where
  isValid : Bool
  suggestion : String
deriving DecidableEq

/-- Response of `generateAdAssets`. -/
structure AdAssets where
  adCopyVariations : List String
  hashtags : List String
deriving DecidableEq

/-- Campaign brief (`UserInput` in types.ts).  The two `File` fields are
modelled by the encoded image they convert to via `fileToBase64`. -/
structure UserInput where
  productImage : Option ImageData
  actorImage : Option ImageData
  productDescription : String
  cta : String
  platform : String
  aspectRatio : String
  videoLength : Nat
  tone : String
  generateVoiceover : Bool
deriving DecidableEq

/-- The delivered ad package (`FinalOutput` in types.ts). -/
structure FinalOutput where
  ad_title : String
  ad_idea : String
  ad_description : String
  platform : String
  aspect_ratio : String
  cta_line : String
  tone : String
  opening_frame_prompt : String
  opening_frame_image_url : String
  veo_prompt : String
  veo_video_url : String
  qc_notes : String
  ad_copy_variations : List String
  hashtags : List String
  voiceover_audio_url : Option String
deriving DecidableEq

/-- One progress notification (`ProgressUpdate` in types.ts). -/
structure ProgressUpdate where
  step : Nat
  message : String
deriving DecidableEq

/-- Oracle for the remote generative service: the response each service
call returns during one run.  Attempt-indexed fields model the fact that
distinct calls to the same endpoint may return distinct responses. -/
structure Provider where
  productAnalysis : Except String String
  actorAnalysis : Except String String
  concept : Except String AdConcept
  frameWithActor : Nat → String → ImageData
  frameImage : Nat → String → String → String
  validation : Nat → ImageValidationResult
  veoPrompt : Except String String
  videoFalsePolls : Nat
  videoError : Option String
  videoUri : Option String
  fetchOk : Bool
  fetchStatusText : String
  speechAudio : String → Option (List Nat)
  adAssets : Except String AdAssets

/-- Text appended to the opening-frame prompt after a failed validation
(`concept.openingFramePrompt += `. IMPORTANT FIX: ...``). -/
def fixSuffix (sug : String) : String := ". IMPORTANT FIX: " ++ sug

/-- Progress message of the generation half of attempt `i`. -/
def genMsg (i : Nat) : String :=
  "Generating opening frame (Attempt " ++ toString i ++ "/3)..."

/-- Progress message of the validation half of attempt `i`. -/
def valMsg (i : Nat) : String :=
  "Validating frame (Attempt " ++ toString i ++ "/3)..."

/-- QC note recorded when attempt `i > 1` passes validation. -/
def passMsg (i : Nat) : String := "QC passed on attempt " ++ toString i ++ "."

/-- QC note recorded when attempt `i < 3` fails validation. -/
def failMsg (i : Nat) (sug : String) : String :=
  "Attempt " ++ toString i ++ " failed QC: " ++ sug ++ ". Refining prompt."

/-- QC note recorded when the final (third) attempt fails validation. -/
def finalFailMsg (sug : String) : String :=
  "QC failed after 3 attempts. Using best available image. Final issue: " ++ sug

/-- Mutable state of the QC retry loop: the (possibly amended) opening
frame prompt, the QC note, the last produced frame, and the history of
every value the prompt has taken (initial value first). -/
structure QCCore where
  prompt : String
  qcNotes : String
  frame : Option ImageData
  promptLog : List String
deriving DecidableEq

/-- Result of running the QC retry loop: the final state plus the
progress notifications and service calls the loop itself emitted. -/
structure QCOut where
  core : QCCore
  progressDelta : List ProgressUpdate
  callsDelta : List String
deriving DecidableEq

/-- Frame produced at attempt `i`: composited with the actor image when
one was supplied, otherwise generated from the prompt and the chosen
aspect ratio as a JPEG. -/
def qcFrame (p : Provider) (actorImg : Option ImageData) (asp : String)
    (i : Nat) (prompt : String) : ImageData :=
  match actorImg with
  | some _ => p.frameWithActor i prompt
  | none => { base64 := p.frameImage i prompt asp, mimeType := "image/jpeg" }

/-- Name of the generation endpoint the loop calls: the actor-compositing
endpoint when an actor image was supplied, the plain image endpoint
otherwise. -/
def qcGenTag (actorImg : Option ImageData) : String :=
  match actorImg with
  | some _ => "generateOpeningFrameWithActor"
  | none => "generateImage"

/-- The opening-frame generation + validation retry loop of
`handleGenerateAd` (`for (let i = 1; i <= 3; i++) ...`), parametrised by
the list of attempt numbers still to run (the run uses `[1, 2, 3]`).
Each iteration reports step 3, generates a frame, reports step 4,
validates the frame, and either stops (valid) or appends the suggestion
to the prompt and retries (invalid), recording the QC note exactly as
the source does. -/
def qcLoop (p : Provider) (actorImg : Option ImageData) (asp : String) :
    List Nat → QCCore → QCOut
  | [], s => ⟨s, [], []⟩
  | i :: rest, s =>
    let frame : ImageData := qcFrame p actorImg asp i s.prompt
    let pr : List ProgressUpdate := [⟨3, genMsg i⟩, ⟨4, valMsg i⟩]
    let cl : List String := [qcGenTag actorImg, "validateImage"]
    let vr := p.validation i
    if vr.isValid then
      ⟨{ s with frame := some frame,
                qcNotes := if 1 < i then passMsg i else s.qcNotes }, pr, cl⟩
    else
      let newPrompt := s.prompt ++ fixSuffix vr.suggestion
      let s1 : QCCore :=
        { prompt := newPrompt,
          qcNotes := if i == 3 then finalFailMsg vr.suggestion else failMsg i vr.suggestion,
          frame := some frame,
          promptLog := s.promptLog ++ [newPrompt] }
      let r := qcLoop p actorImg asp rest s1
      ⟨r.core, pr ++ r.progressDelta, cl ++ r.callsDelta⟩

/-- Initial QC state for a concept: prompt and prompt log start at the
concept's opening-frame prompt, the QC note at its first-attempt default. -/
def qcInit (c : AdConcept) : QCCore :=
  { prompt := c.openingFramePrompt,
    qcNotes := "QC passed on first attempt.",
    frame := none,
    promptLog := [c.openingFramePrompt] }

/-- Number of attempts the QC loop consumes given the oracle's validation
verdicts: the first attempt number in 1..3 whose verdict is valid, or 3
when all three are invalid. -/
def attemptsUsed (p : Provider) : Nat :=
  match [1, 2, 3].find? (fun i => (p.validation i).isValid) with
  | some n => n
  | none => 3

/-- Fixed polling interval of the video stage (`POLLING_INTERVAL`),
in milliseconds. -/
def POLLING_INTERVAL : Nat := 10000

/-- Message emitted on poll tick `c` of the video loop. -/
def pollMsg (c : Nat) : String :=
  "Polling for video status (Attempt #" ++ toString c ++ ")..."

/-- Messages of `n` consecutive poll ticks starting at counter `c`
(`pollCount` starts at 1 and is post-incremented on each tick). -/
def pollMsgs : Nat → Nat → List String
  | 0, _ => []
  | n + 1, c => pollMsg c :: pollMsgs n (c + 1)

/-- Result of the video stage: the progress messages it pushed through
`onProgress`, the service calls it made, and its outcome. -/
structure VideoRun where
  messages : List String
  calls : List String
  outcome : Except String String

/-- The body of `generateVideo` (geminiService): submit the job, then
poll `getVideosOperation` every `POLLING_INTERVAL` until the operation
reports done (`p.videoFalsePolls` polls observe a not-done operation
before the job completes), emitting one counter-bearing message per poll
tick; then fail on an operation error, fail when no result URI is
present, and otherwise report success and fetch the video, returning a
local object URL for the downloaded blob. -/
def generateVideoRun (p : Provider) : VideoRun :=
  let msgs : List String :=
    ["Starting video generation with Veo...",
     "Video processing initiated. This can take several minutes. Polling for status..."]
      ++ pollMsgs p.videoFalsePolls 1
  let calls : List String :=
    "generateVideos" :: List.replicate p.videoFalsePolls "getVideosOperation"
  match p.videoError with
  | some em =>
    let emm := if em = "" then "Unknown error" else em
    ⟨msgs, calls, .error ("Video generation failed: " ++ emm)⟩
  | none =>
    match p.videoUri with
    | none => ⟨msgs, calls, .error "Video generation completed, but no video URI was found."⟩
    | some uri =>
      let msgs2 := msgs ++ ["Video generated successfully! Fetching video data..."]
      let calls2 := calls ++ ["fetchVideo"]
      if p.fetchOk then ⟨msgs2, calls2, .ok ("blob:" ++ uri)⟩
      else ⟨msgs2, calls2, .error ("Failed to download video. Status: " ++ p.fetchStatusText)⟩

/-- Write one byte (`DataView.setUint8`): stored modulo 2^8. -/
def setUint8 (buf : List Nat) (off v : Nat) : List Nat :=
  buf.set off (v % 256)

/-- Write a 16-bit little-endian value (`DataView.setUint16(_, _, true)`). -/
def setUint16LE (buf : List Nat) (off v : Nat) : List Nat :=
  (buf.set off (v % 256)).set (off + 1) (v / 256 % 256)

/-- Write a 32-bit little-endian value (`DataView.setUint32(_, _, true)`):
bytes beyond the 4th octet are dropped, i.e. the value is stored modulo
2^32. -/
def setUint32LE (buf : List Nat) (off v : Nat) : List Nat :=
  ((((buf.set off (v % 256)).set (off + 1) (v / 256 % 256)).set
      (off + 2) (v / 65536 % 256)).set (off + 3) (v / 16777216 % 256))

/-- The 44-byte WAV header of `getWavHeader`, built by the same sequence
of `DataView` writes on a zero-initialised 44-byte buffer. -/
def getWavHeader (dataLength sampleRate numChannels bitsPerSample : Nat) : List Nat :=
  let buffer : List Nat := List.replicate 44 0
  let blockAlign := numChannels * bitsPerSample / 8
  let byteRate := sampleRate * blockAlign
  let b := setUint8 buffer 0 (Char.toNat 'R')
  let b := setUint8 b 1 (Char.toNat 'I')
  let b := setUint8 b 2 (Char.toNat 'F')
  let b := setUint8 b 3 (Char.toNat 'F')
  let b := setUint32LE b 4 (36 + dataLength)
  let b := setUint8 b 8 (Char.toNat 'W')
  let b := setUint8 b 9 (Char.toNat 'A')
  let b := setUint8 b 10 (Char.toNat 'V')
  let b := setUint8 b 11 (Char.toNat 'E')
  let b := setUint8 b 12 (Char.toNat 'f')
  let b := setUint8 b 13 (Char.toNat 'm')
  let b := setUint8 b 14 (Char.toNat 't')
  let b := setUint8 b 15 (Char.toNat ' ')
  let b := setUint32LE b 16 16
  let b := setUint16LE b 20 1
  let b := setUint16LE b 22 numChannels
  let b := setUint32LE b 24 sampleRate
  let b := setUint32LE b 28 byteRate
  let b := setUint16LE b 32 blockAlign
  let b := setUint16LE b 34 bitsPerSample
  let b := setUint8 b 36 (Char.toNat 'd')
  let b := setUint8 b 37 (Char.toNat 'a')
  let b := setUint8 b 38 (Char.toNat 't')
  let b := setUint8 b 39 (Char.toNat 'a')
  let b := setUint32LE b 40 dataLength
  b

/-- WAV container built by `generateSpeech`: the header for the decoded
audio bytes (16-bit mono 24000 Hz) prepended to those bytes. -/
def makeWav (audio : List Nat) : List Nat :=
  getWavHeader audio.length 24000 1 16 ++ audio

/-- Read the byte at offset `i` (0 when out of range). -/
def byteAt (l : List Nat) (i : Nat) : Nat := l.getD i 0

/-- Read a 16-bit little-endian value at offset `i`. -/
def readUint16LE (l : List Nat) (i : Nat) : Nat :=
  byteAt l i + 256 * byteAt l (i + 1)

/-- Read a 32-bit little-endian value at offset `i`. -/
def readUint32LE (l : List Nat) (i : Nat) : Nat :=
  byteAt l i + 256 * byteAt l (i + 1) + 65536 * byteAt l (i + 2)
    + 16777216 * byteAt l (i + 3)

/-- One character list starts with another. -/
def startsWithChars : List Char → List Char → Bool
  | [], _ => true
  | _ :: _, [] => false
  | a :: as, b :: bs => a == b && startsWithChars as bs

/-- One character list occurs inside another. -/
def containsChars (needle : List Char) : List Char → Bool
  | [] => startsWithChars needle []
  | b :: bs => startsWithChars needle (b :: bs) || containsChars needle bs

/-- The substring test used by the error handler
(`e.message?.includes(...)`): `needle` occurs inside `hay`. -/
def includes (hay needle : String) : Bool :=
  containsChars needle.data hay.data

/-- The remapped credential error message. -/
def apiKeyErrorMsg : String :=
  "API Key not found or invalid. Please select a valid API key and try again."

/-- The credential failure signature matched on the error message. -/
def entityNotFoundSig : String := "Requested entity was not found"

/-- The catch handler of `handleGenerateAd`: a falsy (empty) message is
replaced by the generic message; a message carrying the credential
failure signature is remapped to `apiKeyErrorMsg` and flips the
`apiKeySelected` flag to `some false`; any other message is surfaced
unchanged and leaves the flag untouched. -/
def surfaceError (key0 : Option Bool) (msg : String) : String × Option Bool :=
  let base := if msg = "" then "An unknown error occurred." else msg
  if includes msg entityNotFoundSig then (apiKeyErrorMsg, some false)
  else (base, key0)

/-- Observable result of one `handleGenerateAd` run: every progress state
set (in order, ending with the finally-block reset), the service calls
made, and the terminal outcome (`setResult` / `setError`) together with
the final `apiKeySelected` flag. -/
structure AppResult where
  progress : List ProgressUpdate
  calls : List String
  result : Option FinalOutput
  error : Option String
  apiKeySelected : Option Bool
deriving DecidableEq

/-- Error exit of a run: the catch block surfaces the message through
`surfaceError` and the finally block resets the progress state. -/
def finishErr (progress : List ProgressUpdate) (calls : List String)
    (key0 : Option Bool) (msg : String) : AppResult :=
  let r := surfaceError key0 msg
  { progress := progress ++ [⟨0, ""⟩], calls := calls,
    result := none, error := some r.1, apiKeySelected := r.2 }

/-- Success exit of a run: the result is set and the finally block resets
the progress state; the `apiKeySelected` flag is untouched. -/
def finishOk (progress : List ProgressUpdate) (calls : List String)
    (key0 : Option Bool) (out : FinalOutput) : AppResult :=
  { progress := progress ++ [⟨0, ""⟩], calls := calls,
    result := some out, error := none, apiKeySelected := key0 }

/-- The voiceover instruction line built by the pipeline. -/
def voText (input : UserInput) : String :=
  "Say with a " ++ input.tone ++ " tone: " ++ input.cta

/-- Local object URL handed out for a synthesized audio blob. -/
def audioObjectURL (wav : List Nat) : String :=
  "blob:audio-" ++ toString wav.length

/-- Data URL built for the opening frame
(`data:${mimeType};base64,${base64}`). -/
def dataUrl (f : ImageData) : String :=
  "data:" ++ f.mimeType ++ ";base64," ++ f.base64

/-- Stage 8 and final assembly of `handleGenerateAd`. -/
def finishStages (p : Provider) (input : UserInput) (key0 : Option Bool)
    (c : AdConcept) (q : QCOut)
    (openingFrameUrl veo videoUrl : String) (voiceoverUrl : Option String)
    (pr : List ProgressUpdate) (calls : List String) : AppResult :=
  let pr7 := pr ++ [⟨8, "Generating ad assets..."⟩]
  let calls7 := calls ++ ["generateAdAssets"]
  match p.adAssets with
  | .error m => finishErr pr7 calls7 key0 m
  | .ok assets =>
    finishOk pr7 calls7 key0
      { ad_title := c.adTitle, ad_idea := c.adIdea, ad_description := c.adDescription,
        platform := input.platform, aspect_ratio := input.aspectRatio,
        cta_line := input.cta, tone := input.tone,
        opening_frame_prompt := q.core.prompt,
        opening_frame_image_url := openingFrameUrl,
        veo_prompt := veo, veo_video_url := videoUrl,
        qc_notes := q.core.qcNotes,
        ad_copy_variations := assets.adCopyVariations,
        hashtags := assets.hashtags,
        voiceover_audio_url := voiceoverUrl }

/-- Stages 2 through 8 of `handleGenerateAd` (concept, QC retry loop,
script, video, optional voiceover, ad assets, final assembly), shared by
the with-actor and without-actor analysis branches of `runApp`. -/
def runStages (p : Provider) (input : UserInput) (key0 : Option Bool)
    (_imageAnalysis : String) (pr1 : List ProgressUpdate) (calls1 : List String) :
    AppResult :=
  let pr2 := pr1 ++ [⟨2, "Generating ad concept..."⟩]
  let calls2 := calls1 ++ ["generateAdConcept"]
  match p.concept with
  | .error m => finishErr pr2 calls2 key0 m
  | .ok c =>
  let q := qcLoop p input.actorImage input.aspectRatio [1, 2, 3] (qcInit c)
  let pr3 := pr2 ++ q.progressDelta
  let calls3 := calls2 ++ q.callsDelta
  match q.core.frame with
  | none => finishErr pr3 calls3 key0 "Failed to generate a valid opening frame."
  | some frameData =>
  let openingFrameUrl := dataUrl frameData
  let pr4 := pr3 ++ [⟨5, "Writing video script..."⟩]
  let calls4 := calls3 ++ ["generateVideoDirectorPrompt"]
  match p.veoPrompt with
  | .error m => finishErr pr4 calls4 key0 m
  | .ok veo =>
  let v := generateVideoRun p
  let pr5 := (pr4 ++ [⟨6, "Generating video (this may take a few minutes)..."⟩])
    ++ v.messages.map (fun m => ⟨6, m⟩)
  let calls5 := calls4 ++ v.calls
  match v.outcome with
  | .error m => finishErr pr5 calls5 key0 m
  | .ok videoUrl =>
  match input.generateVoiceover with
  | true =>
    let pr6 := pr5 ++ [⟨7, "Generating voiceover..."⟩]
    let calls6 := calls5 ++ ["generateSpeech"]
    (match p.speechAudio (voText input) with
     | none => finishErr pr6 calls6 key0 "TTS generation failed."
     | some audioBytes =>
       finishStages p input key0 c q openingFrameUrl veo videoUrl
         (some (audioObjectURL (makeWav audioBytes))) pr6 calls6)
  | false =>
    finishStages p input key0 c q openingFrameUrl veo videoUrl
      none pr5 calls5

/-- One run of `handleGenerateAd` (App component), from stage 1 through
final assembly, against provider oracle `p`, with initial
`apiKeySelected` flag `key0`.  Stage ordering, progress steps and
messages, the QC retry loop, the video polling stage, the optional
voiceover stage, the assembly of `FinalOutput`, and the catch/finally
handling all follow the source.  (The unreachable missing-product-image
branch — guarded against in `submitForm` — surfaces the file-read
failure of `fileToBase64(null)`.) -/
def runApp (p : Provider) (input : UserInput) (key0 : Option Bool) : AppResult :=
  let pr1 : List ProgressUpdate := [⟨1, "Analyzing images..."⟩]
  match input.productImage with
  | none => finishErr pr1 [] key0 "Failed to read product image."
  | some _ =>
  match p.productAnalysis with
  | .error m => finishErr pr1 ["analyzeImage"] key0 m
  | .ok productAnalysisText =>
  match input.actorImage with
  | some _ =>
    (match p.actorAnalysis with
     | .error m => finishErr pr1 ["analyzeImage", "analyzeImage"] key0 m
     | .ok actorAnalysisText =>
       runStages p input key0
         (productAnalysisText ++ "\nActor Analysis: " ++ actorAnalysisText)
         pr1 ["analyzeImage", "analyzeImage"])
  | none => runStages p input key0 productAnalysisText pr1 ["analyzeImage"]

/-- Result of submitting the input form. -/
structure SubmitResult where
  alert : Option String
  run : Option AppResult
deriving DecidableEq

/-- `InputForm.handleSubmit`: a missing product image raises the
validation alert and returns without invoking `onSubmit`; otherwise the
pipeline run is started. -/
def submitForm (p : Provider) (input : UserInput) (key0 : Option Bool) : SubmitResult :=
  match input.productImage with
  | none => { alert := some "Please upload a product image.", run := none }
  | some _ => { alert := none, run := some (runApp p input key0) }

/-- Progress notifications observed for a form submission. -/
def submitProgress (r : SubmitResult) : List ProgressUpdate :=
  match r.run with
  | none => []
  | some a => a.progress

/-- Service calls made for a form submission. -/
def submitCalls (r : SubmitResult) : List String :=
  match r.run with
  | none => []
  | some a => a.calls

/-- One string extends another by appending (the first is a prefix of the
second). -/
def PromptExtends (a b : String) : Prop := ∃ t, b = a ++ t

/-- Step-order relation satisfied by consecutive progress updates of a
run: the step index never decreases except for the retry sub-loop's
return from a validation notification (step 4) to the next attempt's
generation notification (step 3). -/
def stepRel (a b : ProgressUpdate) : Prop :=
  a.step ≤ b.step ∨ (a.step = 4 ∧ b.step = 3)

/-- A string begins with the `#` character. -/
def beginsWithHash (tag : String) : Bool :=
  match tag.data with
  | [] => false
  | ch :: _ => ch == '#'

/-- Well-formed `generateAdAssets` response, as demanded by the prompt of
the structured call: exactly 3 ad-copy variations and exactly 5 hashtags,
none carrying a leading `#`. -/
def WellFormedAdAssets (r : AdAssets) : Prop :=
  r.adCopyVariations.length = 3 ∧ r.hashtags.length = 5 ∧
    ∀ h ∈ r.hashtags, beginsWithHash h = false

/-- All stages outside the QC retry loop succeed: every awaited service
call of the run returns a usable response. -/
structure StagesOk (p : Provider) (input : UserInput) : Prop where
  productOk : ∃ img, input.productImage = some img
  analysisOk : ∃ a, p.productAnalysis = Except.ok a
  actorAnalysisOk : ∃ a, p.actorAnalysis = Except.ok a
  conceptOk : ∃ c, p.concept = Except.ok c
  veoOk : ∃ v, p.veoPrompt = Except.ok v
  videoErrorNone : p.videoError = none
  uriOk : ∃ u, p.videoUri = some u
  fetchWorked : p.fetchOk = true
  speechOk : input.generateVoiceover = true → ∃ b, p.speechAudio (voText input) = some b
  assetsOk : ∃ r, p.adAssets = Except.ok r

/-- Concrete image fixture. -/
def demoImage : ImageData := { base64 := "AAAA", mimeType := "image/png" }

/-- Concrete concept fixture. -/
def demoConcept : AdConcept :=
  { adTitle := "Title", adIdea := "Idea", adDescription := "Desc",
    openingFramePrompt := "A studio shot of the product" }

/-- Concrete well-formed ad-assets fixture. -/
def demoAssets : AdAssets :=
  { adCopyVariations := ["copy one", "copy two", "copy three"],
    hashtags := ["style", "fashion", "ootd", "summer", "dress"] }

/-- Concrete provider fixture on which every stage succeeds and the first
QC attempt validates. -/
def demoProvider : Provider :=
  { productAnalysis := .ok "a red dress",
    actorAnalysis := .ok "a smiling actor",
    concept := .ok demoConcept,
    frameWithActor := fun _ _ => demoImage,
    frameImage := fun _ _ _ => "FRAME",
    validation := fun _ => { isValid := true, suggestion := "fine" },
    veoPrompt := .ok "veo script",
    videoFalsePolls := 2,
    videoError := none,
    videoUri := some "https://example.com/video",
    fetchOk := true,
    fetchStatusText := "OK",
    speechAudio := fun _ => some [1, 2, 3],
    adAssets := .ok demoAssets }

/-- Concrete input fixture with a product image, no actor image, and no
voiceover. -/
def demoInput : UserInput :=
  { productImage := some demoImage, actorImage := none,
    productDescription := "A red dress", cta := "Shop now",
    platform := "TikTok", aspectRatio := "9:16", videoLength := 8,
    tone := "cinematic", generateVoiceover := false }

/-- Provider fixture whose first QC attempt fails validation and whose
second attempt passes. -/
def retryProvider : Provider :=
  { demoProvider with
      validation := fun i => { isValid := i == 2, suggestion := "show the feet" } }

/-- Provider fixture on which every QC attempt fails validation. -/
def allFailProvider : Provider :=
  { demoProvider with
      validation := fun i => { isValid := false, suggestion := "issue " ++ toString i } }

/-! ### WAV container lemmas -/

/-- The synthesized header is exactly 44 bytes. -/
theorem getWavHeader_length (n sr nc bps : Nat) :
    (getWavHeader n sr nc bps).length = 44 := by
  simp [getWavHeader, setUint8, setUint16LE, setUint32LE]

/-- Bytes of the container below offset 44 come from the header. -/
theorem byteAt_makeWav (audio : List Nat) (i : Nat) (h : i < 44) :
    byteAt (makeWav audio) i = byteAt (getWavHeader audio.length 24000 1 16) i := by
  have hl : i < (getWavHeader audio.length 24000 1 16).length := by
    rw [getWavHeader_length]; exact h
  simp [byteAt, makeWav, List.getD, List.getElem?_append_left hl]

/-- Reassembling the four little-endian octets of a stored 32-bit value
yields the value modulo 2^32. -/
theorem le32_reassemble (x : Nat) :
    x % 256 + 256 * (x / 256 % 256) + 65536 * (x / 65536 % 256)
      + 16777216 * (x / 16777216 % 256) = x % 4294967296 := by
  omega

/-- The chunk-size field (offset 4) of the synthesized container holds
`36 + n` modulo 2^32, where `n` is the number of sample bytes. -/
theorem wav_read4 (audio : List Nat) :
    readUint32LE (makeWav audio) 4 = (36 + audio.length) % 2 ^ 32 := by
  rw [readUint32LE, byteAt_makeWav _ _ (by norm_num), byteAt_makeWav _ _ (by norm_num),
    byteAt_makeWav _ _ (by norm_num), byteAt_makeWav _ _ (by norm_num)]
  simp only [byteAt, getWavHeader, setUint8, setUint16LE, setUint32LE, List.getD,
    List.getElem?_set_ne, List.getElem?_set_eq_of_lt]
  norm_num [List.getElem?_set_ne, List.getElem?_set_eq_of_lt]
  omega

/-- The data-length field (offset 40) of the synthesized container holds
`n` modulo 2^32, where `n` is the number of sample bytes. -/
theorem wav_read40 (audio : List Nat) :
    readUint32LE (makeWav audio) 40 = audio.length % 2 ^ 32 := by
  rw [readUint32LE, byteAt_makeWav _ _ (by norm_num), byteAt_makeWav _ _ (by norm_num),
    byteAt_makeWav _ _ (by norm_num), byteAt_makeWav _ _ (by norm_num)]
  simp only [byteAt, getWavHeader, setUint8, setUint16LE, setUint32LE, List.getD,
    List.getElem?_set_ne, List.getElem?_set_eq_of_lt]
  norm_num [List.getElem?_set_ne, List.getElem?_set_eq_of_lt]
  omega

/-- C5 (amended): for every byte count `N`, the container produced from
`N` bytes of 16-bit mono 24000 Hz samples is exactly `44 + N` bytes; the
32-bit little-endian fields at offsets 4 and 40 hold `36 + N` and `N`
reduced modulo 2^32 (the `DataView` stores 32-bit values modulo 2^32);
the 16-bit little-endian value at offset 20 is 1 (PCM); and the fixed
fields sit at their standard offsets: `RIFF` at 0, `WAVE` at 8, `fmt `
at 12, `data` at 36, channel count 1 at 22, sample rate 24000 at 24,
byte rate 48000 at 28, block alignment 2 at 32, bits per sample 16
at 34. -/
theorem wav_container_layout (audio : List Nat) :
    (makeWav audio).length = 44 + audio.length ∧
    readUint32LE (makeWav audio) 4 = (36 + audio.length) % 2 ^ 32 ∧
    readUint32LE (makeWav audio) 40 = audio.length % 2 ^ 32 ∧
    readUint16LE (makeWav audio) 20 = 1 ∧
    ([byteAt (makeWav audio) 0, byteAt (makeWav audio) 1, byteAt (makeWav audio) 2,
       byteAt (makeWav audio) 3] = [82, 73, 70, 70] ∧
     [byteAt (makeWav audio) 8, byteAt (makeWav audio) 9, byteAt (makeWav audio) 10,
       byteAt (makeWav audio) 11] = [87, 65, 86, 69] ∧
     [byteAt (makeWav audio) 12, byteAt (makeWav audio) 13, byteAt (makeWav audio) 14,
       byteAt (makeWav audio) 15] = [102, 109, 116, 32] ∧
     [byteAt (makeWav audio) 36, byteAt (makeWav audio) 37, byteAt (makeWav audio) 38,
       byteAt (makeWav audio) 39] = [100, 97, 116, 97]) ∧
    readUint16LE (makeWav audio) 22 = 1 ∧
    readUint32LE (makeWav audio) 24 = 24000 ∧
    readUint32LE (makeWav audio) 28 = 48000 ∧
    readUint16LE (makeWav audio) 32 = 2 ∧
    readUint16LE (makeWav audio) 34 = 16 := by
  refine ⟨?_, wav_read4 audio, wav_read40 audio, ?_, ⟨?_, ?_, ?_, ?_⟩, ?_, ?_, ?_, ?_, ?_⟩
  · simp [makeWav, List.length_append, getWavHeader_length]
  all_goals
    try simp only [readUint16LE, readUint32LE]
    repeat rw [byteAt_makeWav _ _ (by norm_num)]
    norm_num [byteAt, getWavHeader, setUint8, setUint16LE, setUint32LE, List.getD,
      List.getElem?_set_ne, List.getElem?_set_eq_of_lt]
    try decide

/-- C5 counterexample: at `N = 2^32` sample bytes the 32-bit chunk-size
field at offset 4 stores `(36 + N) mod 2^32 = 36`, not `36 + N` — the
claim's unqualified equality fails for byte counts that overflow the
32-bit field. -/
theorem wav_chunk_size_overflow :
    readUint32LE (makeWav (List.replicate (2 ^ 32) 0)) 4 ≠
      36 + (List.replicate (2 ^ 32) 0).length := by
  rw [wav_read4, List.length_replicate]
  omega

/-! ### Video polling (C4) -/

/-- Poll messages enumerate consecutive counters: `n` ticks starting at
counter `c` carry the counters `c, c+1, ..., c+n-1`. -/
theorem pollMsgs_counters (n : Nat) : ∀ c : Nat,
    pollMsgs n c = (List.range n).map (fun j => pollMsg (c + j)) := by
  induction n with
  | zero => intro c; rfl
  | succ m ih =>
    intro c
    rw [pollMsgs, List.range_succ_eq_map, List.map_cons, List.map_map, ih (c + 1)]
    simp [Function.comp, Nat.add_comm, Nat.add_assoc, Nat.add_left_comm]

/-- C4: the video stage polls the job at the fixed 10-second interval
until it reports done, emitting one message with an incrementing counter
per poll tick; when the job reports not-done twice and then done with a
result URI, exactly the two polling messages with counters 1 and 2 are
emitted between the initiation messages and the success message. -/
theorem video_polling_messages (p : Provider) (uri : String)
    (h2 : p.videoFalsePolls = 2) (he : p.videoError = none)
    (hu : p.videoUri = some uri) :
    (generateVideoRun p).messages =
      ["Starting video generation with Veo...",
       "Video processing initiated. This can take several minutes. Polling for status...",
       pollMsg 1, pollMsg 2,
       "Video generated successfully! Fetching video data..."] ∧
    (∀ n c, pollMsgs n c = (List.range n).map (fun j => pollMsg (c + j))) ∧
    POLLING_INTERVAL = 10000 := by
  refine ⟨?_, fun n c => pollMsgs_counters n c, rfl⟩
  cases hf : p.fetchOk <;>
    simp [generateVideoRun, h2, he, hu, hf, pollMsgs]

/-- C4 witness: the scenario instantiated on the demo provider. -/
theorem video_polling_messages_witness :
    demoProvider.videoFalsePolls = 2 ∧ demoProvider.videoError = none ∧
      demoProvider.videoUri = some "https://example.com/video" ∧
      (generateVideoRun demoProvider).messages =
        ["Starting video generation with Veo...",
         "Video processing initiated. This can take several minutes. Polling for status...",
         pollMsg 1, pollMsg 2,
         "Video generated successfully! Fetching video data..."] :=
  ⟨rfl, rfl, rfl,
    (video_polling_messages demoProvider "https://example.com/video" rfl rfl rfl).1⟩

/-! ### Input validation (C8) -/

/-- C8: an input without a product image is rejected by the form guard —
a validation alert is raised, the pipeline is never invoked, and no
progress notification and no service call is made. -/
theorem submit_missing_product_image (p : Provider) (input : UserInput)
    (key0 : Option Bool) (h : input.productImage = none) :
    (submitForm p input key0).alert = some "Please upload a product image." ∧
    (submitForm p input key0).run = none ∧
    submitProgress (submitForm p input key0) = [] ∧
    submitCalls (submitForm p input key0) = [] := by
  simp [submitForm, submitProgress, submitCalls, h]

/-- C8 witness: the guard fires on a concrete input with no product
image. -/
theorem submit_missing_product_image_witness :
    ({ demoInput with productImage := none } : UserInput).productImage = none ∧
    (submitForm demoProvider { demoInput with productImage := none } none).alert =
      some "Please upload a product image." ∧
    (submitForm demoProvider { demoInput with productImage := none } none).run = none :=
  ⟨rfl,
    (submit_missing_product_image demoProvider { demoInput with productImage := none }
      none rfl).1,
    (submit_missing_product_image demoProvider { demoInput with productImage := none }
      none rfl).2.1⟩

/-! ### Credential error remapping (C9) -/

/-- C9: when a stage failure reaches the catch handler with a message
containing the "Requested entity was not found" signature, the surfaced
error is the actionable credential message and the credential flag is set
to `some false`; any other non-empty stage error message is surfaced
unchanged and leaves the flag untouched. -/
theorem error_remap (progress : List ProgressUpdate) (calls : List String)
    (key0 : Option Bool) (msg : String) :
    (includes msg entityNotFoundSig = true →
      (finishErr progress calls key0 msg).error = some apiKeyErrorMsg ∧
      (finishErr progress calls key0 msg).apiKeySelected = some false) ∧
    (includes msg entityNotFoundSig = false → msg ≠ "" →
      (finishErr progress calls key0 msg).error = some msg ∧
      (finishErr progress calls key0 msg).apiKeySelected = key0) := by
  constructor
  · intro h
    simp [finishErr, surfaceError, h]
  · intro h hne
    simp [finishErr, surfaceError, h, hne]

/-- C9 witness: a video-stage credential failure is remapped, and an
ordinary failure message passes through unchanged. -/
theorem error_remap_witness :
    (includes "Video generation failed: Requested entity was not found"
        entityNotFoundSig = true ∧
      (finishErr [] [] (some true)
          "Video generation failed: Requested entity was not found").error =
        some apiKeyErrorMsg ∧
      (finishErr [] [] (some true)
          "Video generation failed: Requested entity was not found").apiKeySelected =
        some false) ∧
    (includes "TTS generation failed." entityNotFoundSig = false ∧
      (finishErr [] [] (some true) "TTS generation failed.").error =
        some "TTS generation failed." ∧
      (finishErr [] [] (some true) "TTS generation failed.").apiKeySelected =
        some true) := by
  constructor
  · refine ⟨by decide, ?_⟩
    exact (error_remap [] [] (some true)
      "Video generation failed: Requested entity was not found").1 (by decide)
  · refine ⟨by decide, ?_⟩
    exact (error_remap [] [] (some true) "TTS generation failed.").2 (by decide)
      (by decide)

/-! ### QC retry loop: attempt bound (C1) and prompt growth (C3) -/

/-- Call counts of the QC loop: exactly `attemptsUsed p` validation
calls and exactly as many frame-generation calls. -/
theorem qcLoop_counts (p : Provider) (actorImg : Option ImageData)
    (asp : String) (c : AdConcept) :
    (qcLoop p actorImg asp [1, 2, 3] (qcInit c)).callsDelta.count "validateImage" =
      attemptsUsed p ∧
    attemptsUsed p ≤ 3 ∧
    (qcLoop p actorImg asp [1, 2, 3]
          (qcInit c)).callsDelta.count "generateOpeningFrameWithActor" +
      (qcLoop p actorImg asp [1, 2, 3] (qcInit c)).callsDelta.count "generateImage" =
      attemptsUsed p := by
  cases actorImg <;>
  cases h1 : (p.validation 1).isValid <;>
  cases h2 : (p.validation 2).isValid <;>
  cases h3 : (p.validation 3).isValid <;>
  simp [qcLoop, qcInit, qcGenTag, attemptsUsed, List.find?, h1, h2, h3,
    List.count_cons, List.count_nil]

/-- Invariant of the QC loop: as long as the prompt log is an
append-only chain ending at the current prompt, running any schedule of
attempts preserves that shape, and the final prompt extends the starting
one. -/
theorem qcLoop_promptLog_chain (p : Provider) (actorImg : Option ImageData)
    (asp : String) :
    ∀ (l : List Nat) (s : QCCore),
      List.Chain' PromptExtends s.promptLog →
      s.promptLog.getLast? = some s.prompt →
      List.Chain' PromptExtends (qcLoop p actorImg asp l s).core.promptLog ∧
      (qcLoop p actorImg asp l s).core.promptLog.getLast? =
        some (qcLoop p actorImg asp l s).core.prompt ∧
      PromptExtends s.prompt (qcLoop p actorImg asp l s).core.prompt := by
  intro l
  induction l with
  | nil =>
    intro s hc hl
    exact ⟨hc, hl, "", (String.append_empty s.prompt).symm⟩
  | cons i rest ih =>
    intro s hc hl
    cases hv : (p.validation i).isValid
    case true =>
      simp only [qcLoop, hv, if_true]
      exact ⟨hc, hl, "", (String.append_empty s.prompt).symm⟩
    case false =>
      simp only [qcLoop, hv, Bool.false_eq_true, if_false]
      have hc1 : List.Chain' PromptExtends
          (s.promptLog ++ [s.prompt ++ fixSuffix (p.validation i).suggestion]) := by
        rw [List.chain'_append]
        refine ⟨hc, List.chain'_singleton _, ?_⟩
        intro x hx y hy
        rw [hl] at hx
        simp only [Option.mem_def, Option.some.injEq] at hx
        simp only [List.head?_cons, Option.mem_def, Option.some.injEq] at hy
        subst hx; subst hy
        exact ⟨fixSuffix (p.validation i).suggestion, rfl⟩
      have hl1 : (s.promptLog ++ [s.prompt ++ fixSuffix (p.validation i).suggestion]).getLast? =
          some (s.prompt ++ fixSuffix (p.validation i).suggestion) :=
        List.getLast?_concat _
      obtain ⟨ch, cl, t, ht⟩ := ih
        ⟨s.prompt ++ fixSuffix (p.validation i).suggestion,
         (if i == 3 then finalFailMsg (p.validation i).suggestion
          else failMsg i (p.validation i).suggestion),
         some (qcFrame p actorImg asp i s.prompt),
         s.promptLog ++ [s.prompt ++ fixSuffix (p.validation i).suggestion]⟩
        hc1 hl1
      refine ⟨ch, cl, fixSuffix (p.validation i).suggestion ++ t, ?_⟩
      rw [ht, String.append_assoc]

/-- C3: across the QC retry loop the opening-frame prompt only grows by
appending — every recorded prompt value extends the previous one by a
suffix (so each earlier prompt is a prefix of each later one), and the
final prompt extends the concept's original opening-frame prompt. -/
theorem qc_prompt_append_only (p : Provider) (actorImg : Option ImageData)
    (asp : String) (c : AdConcept) :
    List.Chain' PromptExtends
      (qcLoop p actorImg asp [1, 2, 3] (qcInit c)).core.promptLog ∧
    PromptExtends c.openingFramePrompt
      (qcLoop p actorImg asp [1, 2, 3] (qcInit c)).core.prompt := by
  have h := qcLoop_promptLog_chain p actorImg asp [1, 2, 3] (qcInit c)
    (List.chain'_singleton _) rfl
  exact ⟨h.1, h.2.2⟩

/-! ### Run-level lemmas -/

/-- A state whose frame is already set keeps a set frame through any
schedule of further attempts. -/
theorem qcLoop_frame_keep (p : Provider) (actorImg : Option ImageData)
    (asp : String) :
    ∀ (l : List Nat) (s : QCCore), s.frame.isSome = true →
      ((qcLoop p actorImg asp l s).core.frame).isSome = true := by
  intro l
  induction l with
  | nil => intro s hs; exact hs
  | cons i rest ih =>
    intro s hs
    cases hv : (p.validation i).isValid
    · simp only [qcLoop, hv, Bool.false_eq_true, if_false]
      exact ih _ rfl
    · simp only [qcLoop, hv, if_true]
      rfl

/-- The loop always produces a frame when at least one attempt runs. -/
theorem qcLoop_frame_some (p : Provider) (actorImg : Option ImageData)
    (asp : String) (i : Nat) (rest : List Nat) (s : QCCore) :
    ((qcLoop p actorImg asp (i :: rest) s).core.frame).isSome = true := by
  cases hv : (p.validation i).isValid
  · simp only [qcLoop, hv, Bool.false_eq_true, if_false]
    exact qcLoop_frame_keep p actorImg asp rest _ rfl
  · simp only [qcLoop, hv, if_true]
    rfl

/-- Inversion of a successful run: a `FinalOutput` is only produced with
the concept call succeeded, and its prompt, QC note, opening-frame image
and ad-asset lists are exactly those of the QC loop result and of the
ad-assets response. -/
theorem runApp_result_inv (p : Provider) (input : UserInput) (key0 : Option Bool)
    (out : FinalOutput) (h : (runApp p input key0).result = some out) :
    ∃ c, p.concept = Except.ok c ∧
      out.opening_frame_prompt =
        (qcLoop p input.actorImage input.aspectRatio [1, 2, 3] (qcInit c)).core.prompt ∧
      out.qc_notes =
        (qcLoop p input.actorImage input.aspectRatio [1, 2, 3] (qcInit c)).core.qcNotes ∧
      (∃ f, (qcLoop p input.actorImage input.aspectRatio [1, 2, 3]
            (qcInit c)).core.frame = some f ∧
        out.opening_frame_image_url = dataUrl f) ∧
      ∃ assets, p.adAssets = Except.ok assets ∧
        out.ad_copy_variations = assets.adCopyVariations ∧
        out.hashtags = assets.hashtags := by
  simp only [runApp] at h
  rcases hpi : input.productImage with _ | img <;> simp only [hpi] at h
  · simp [finishErr] at h
  rcases hpa : p.productAnalysis with m | pa <;> simp only [hpa] at h
  · simp [finishErr] at h
  have main : ∀ (ia : String) (pr1 : List ProgressUpdate) (calls1 : List String),
      (runStages p input key0 ia pr1 calls1).result = some out →
      ∃ c, p.concept = Except.ok c ∧
        out.opening_frame_prompt =
          (qcLoop p input.actorImage input.aspectRatio [1, 2, 3] (qcInit c)).core.prompt ∧
        out.qc_notes =
          (qcLoop p input.actorImage input.aspectRatio [1, 2, 3] (qcInit c)).core.qcNotes ∧
        (∃ f, (qcLoop p input.actorImage input.aspectRatio [1, 2, 3]
              (qcInit c)).core.frame = some f ∧
          out.opening_frame_image_url = dataUrl f) ∧
        ∃ assets, p.adAssets = Except.ok assets ∧
          out.ad_copy_variations = assets.adCopyVariations ∧
          out.hashtags = assets.hashtags := by
    intro ia pr1 calls1 h
    simp only [runStages] at h
    rcases hc : p.concept with m | c <;> simp only [hc] at h
    · simp [finishErr] at h
    refine ⟨c, rfl, ?_⟩
    rcases hqf : (qcLoop p input.actorImage input.aspectRatio [1, 2, 3]
        (qcInit c)).core.frame with _ | f
    · exact absurd hqf (by
        have hs := qcLoop_frame_some p input.actorImage input.aspectRatio 1 [2, 3] (qcInit c)
        intro hnone
        rw [hnone] at hs
        exact Bool.false_ne_true hs)
    simp only [hqf] at h
    rcases hveo : p.veoPrompt with m | veo <;> simp only [hveo] at h
    · simp [finishErr] at h
    rcases hvid : (generateVideoRun p).outcome with m | vurl <;> simp only [hvid] at h
    · simp [finishErr] at h
    cases hvo : input.generateVoiceover <;> simp only [hvo] at h
    · simp only [finishStages] at h
      rcases ha : p.adAssets with m | assets <;> simp only [ha] at h
      · simp [finishErr] at h
      simp only [finishOk, Option.some.injEq] at h
      subst h
      exact ⟨rfl, rfl, ⟨f, rfl, rfl⟩, assets, rfl, rfl, rfl⟩
    · rcases hsp : p.speechAudio (voText input) with _ | bytes <;> simp only [hsp] at h
      · simp [finishErr] at h
      simp only [finishStages] at h
      rcases ha : p.adAssets with m | assets <;> simp only [ha] at h
      · simp [finishErr] at h
      simp only [finishOk, Option.some.injEq] at h
      subst h
      exact ⟨rfl, rfl, ⟨f, rfl, rfl⟩, assets, rfl, rfl, rfl⟩
  rcases hai : input.actorImage with _ | actor <;> simp only [hai] at h
  · simpa only [hai] using main _ _ _ h
  · rcases haa : p.actorAnalysis with m | aa <;> simp only [haa] at h
    · simp [finishErr] at h
    · simpa only [hai] using main _ _ _ h

/-- When every stage outside the QC loop succeeds, the run produces a
`FinalOutput`. -/
theorem runApp_result_of_ok (p : Provider) (input : UserInput) (key0 : Option Bool)
    (h : StagesOk p input) :
    ((runApp p input key0).result).isSome = true := by
  obtain ⟨⟨img, hpi⟩, ⟨pa, hpa⟩, ⟨aa, haa⟩, ⟨c, hc⟩, ⟨veo, hveo⟩, hverr, ⟨uri, huri⟩,
    hfetch, hspeech, ⟨assets, ha⟩⟩ := h
  have hvid : (generateVideoRun p).outcome = Except.ok ("blob:" ++ uri) := by
    simp [generateVideoRun, hverr, huri, hfetch]
  have hframe := qcLoop_frame_some p input.actorImage input.aspectRatio 1 [2, 3] (qcInit c)
  obtain ⟨f, hqf⟩ := Option.isSome_iff_exists.mp hframe
  cases hai : input.actorImage with
  | none =>
    rw [hai] at hqf
    cases hvo : input.generateVoiceover with
    | false =>
      simp only [runApp, hpi, hpa, hai, runStages, hc, hqf, hveo, hvid, hvo,
        finishStages, ha, finishOk, Option.isSome_some]
    | true =>
      obtain ⟨b, hb⟩ := hspeech hvo
      simp only [runApp, hpi, hpa, hai, runStages, hc, hqf, hveo, hvid, hvo, hb,
        finishStages, ha, finishOk, Option.isSome_some]
  | some actor =>
    rw [hai] at hqf
    cases hvo : input.generateVoiceover with
    | false =>
      simp only [runApp, hpi, hpa, hai, haa, runStages, hc, hqf, hveo, hvid, hvo,
        finishStages, ha, finishOk, Option.isSome_some]
    | true =>
      obtain ⟨b, hb⟩ := hspeech hvo
      simp only [runApp, hpi, hpa, hai, haa, runStages, hc, hqf, hveo, hvid, hvo, hb,
        finishStages, ha, finishOk, Option.isSome_some]

/-- When the first attempt validates, the QC loop leaves the prompt and
the QC note untouched. -/
theorem qcLoop_first_valid (p : Provider) (actorImg : Option ImageData)
    (asp : String) (c : AdConcept) (h1 : (p.validation 1).isValid = true) :
    (qcLoop p actorImg asp [1, 2, 3] (qcInit c)).core.prompt = c.openingFramePrompt ∧
    (qcLoop p actorImg asp [1, 2, 3] (qcInit c)).core.qcNotes =
      "QC passed on first attempt." := by
  simp [qcLoop, qcInit, h1]

/-- When all three attempts fail validation, the loop records the
three-attempt failure note carrying the last suggestion. -/
theorem qcLoop_all_fail (p : Provider) (actorImg : Option ImageData)
    (asp : String) (c : AdConcept)
    (h1 : (p.validation 1).isValid = false)
    (h2 : (p.validation 2).isValid = false)
    (h3 : (p.validation 3).isValid = false) :
    (qcLoop p actorImg asp [1, 2, 3] (qcInit c)).core.qcNotes =
      finalFailMsg ((p.validation 3).suggestion) := by
  simp [qcLoop, qcInit, h1, h2, h3]

/-- C2: when every QC attempt returns an invalid verdict but all other
stages succeed, the run does not abort — it still produces a
`FinalOutput` whose QC note is the three-attempt failure note carrying
the third (last) suggestion, built on the frame kept by the loop (the
last one produced). -/
theorem run_all_attempts_invalid (p : Provider) (input : UserInput)
    (key0 : Option Bool) (c : AdConcept) (h : StagesOk p input)
    (hc : p.concept = Except.ok c)
    (hv : ∀ i, 1 ≤ i → i ≤ 3 → (p.validation i).isValid = false) :
    ∃ out, (runApp p input key0).result = some out ∧
      out.qc_notes = finalFailMsg ((p.validation 3).suggestion) ∧
      ∃ f, (qcLoop p input.actorImage input.aspectRatio [1, 2, 3]
            (qcInit c)).core.frame = some f ∧
        out.opening_frame_image_url = dataUrl f := by
  obtain ⟨out, hout⟩ :=
    Option.isSome_iff_exists.mp (runApp_result_of_ok p input key0 h)
  obtain ⟨c', hc', _, hnotes, ⟨f, hf, hurl⟩, _⟩ :=
    runApp_result_inv p input key0 out hout
  have hcc : c' = c := by
    rw [hc'] at hc
    exact Except.ok.inj hc
  subst hcc
  refine ⟨out, hout, ?_, f, hf, hurl⟩
  rw [hnotes]
  exact qcLoop_all_fail p input.actorImage input.aspectRatio c'
    (hv 1 (by norm_num) (by norm_num)) (hv 2 (by norm_num) (by norm_num))
    (hv 3 (by norm_num) (by norm_num))

/-- C2 witness: the all-invalid provider still yields a `FinalOutput`
with the three-attempt failure note. -/
theorem run_all_attempts_invalid_witness :
    StagesOk allFailProvider demoInput ∧
    (∀ i, 1 ≤ i → i ≤ 3 → (allFailProvider.validation i).isValid = false) ∧
    ∃ out, (runApp allFailProvider demoInput none).result = some out ∧
      out.qc_notes = finalFailMsg ((allFailProvider.validation 3).suggestion) ∧
      ∃ f, (qcLoop allFailProvider demoInput.actorImage demoInput.aspectRatio
            [1, 2, 3] (qcInit demoConcept)).core.frame = some f ∧
        out.opening_frame_image_url = dataUrl f := by
  have hok : StagesOk allFailProvider demoInput :=
    ⟨⟨demoImage, rfl⟩, ⟨_, rfl⟩, ⟨_, rfl⟩, ⟨demoConcept, rfl⟩, ⟨_, rfl⟩, rfl,
      ⟨_, rfl⟩, rfl, fun hh => absurd hh (by decide), ⟨demoAssets, rfl⟩⟩
  exact ⟨hok, fun i _ _ => rfl,
    run_all_attempts_invalid allFailProvider demoInput none demoConcept hok rfl
      (fun i _ _ => rfl)⟩

/-- C6: whenever a run returns a `FinalOutput` and the ad-assets stage's
response is well-formed (as its structured prompt demands), the output's
copy and hashtag lists are passed through unchanged: exactly 3 ad-copy
variations and exactly 5 hashtags, none beginning with `#`. -/
theorem adAssets_passthrough (p : Provider) (input : UserInput)
    (key0 : Option Bool) (out : FinalOutput) (assets : AdAssets)
    (h : (runApp p input key0).result = some out)
    (ha : p.adAssets = Except.ok assets)
    (hwf : WellFormedAdAssets assets) :
    out.ad_copy_variations = assets.adCopyVariations ∧
    out.hashtags = assets.hashtags ∧
    out.ad_copy_variations.length = 3 ∧ out.hashtags.length = 5 ∧
    ∀ tag ∈ out.hashtags, beginsWithHash tag = false := by
  obtain ⟨c, hc, _, _, _, assets', ha', hcopy, htags⟩ :=
    runApp_result_inv p input key0 out h
  have haa : assets' = assets := by
    rw [ha'] at ha
    exact Except.ok.inj ha
  subst haa
  rw [hcopy, htags]
  exact ⟨rfl, rfl, hwf.1, hwf.2.1, hwf.2.2⟩

/-- The `FinalOutput` of the demo run. -/
def demoOut : FinalOutput :=
  { ad_title := "Title", ad_idea := "Idea", ad_description := "Desc",
    platform := "TikTok", aspect_ratio := "9:16", cta_line := "Shop now",
    tone := "cinematic",
    opening_frame_prompt := "A studio shot of the product",
    opening_frame_image_url := "data:image/jpeg;base64,FRAME",
    veo_prompt := "veo script",
    veo_video_url := "blob:https://example.com/video",
    qc_notes := "QC passed on first attempt.",
    ad_copy_variations := ["copy one", "copy two", "copy three"],
    hashtags := ["style", "fashion", "ootd", "summer", "dress"],
    voiceover_audio_url := none }

/-- C6 witness: the demo run returns the demo output with 3 copy
variations and 5 hashtags, none starting with `#`. -/
theorem adAssets_passthrough_witness :
    (runApp demoProvider demoInput none).result = some demoOut ∧
    demoProvider.adAssets = Except.ok demoAssets ∧
    WellFormedAdAssets demoAssets ∧
    (demoOut.ad_copy_variations.length = 3 ∧ demoOut.hashtags.length = 5 ∧
      ∀ tag ∈ demoOut.hashtags, beginsWithHash tag = false) := by
  have hrun : (runApp demoProvider demoInput none).result = some demoOut := by decide
  have hwf : WellFormedAdAssets demoAssets := ⟨by decide, by decide, by decide⟩
  have hmain := adAssets_passthrough demoProvider demoInput none demoOut demoAssets
    hrun rfl hwf
  exact ⟨hrun, rfl, hwf, hmain.2.2.1, hmain.2.2.2.1, hmain.2.2.2.2⟩

/-- C10: when the first generated frame passes validation, the QC loop
mutates nothing — the delivered opening-frame prompt is exactly the
concept's prompt and the QC note is the first-attempt success text. -/
theorem first_attempt_pass_no_mutation (p : Provider) (input : UserInput)
    (key0 : Option Bool) (out : FinalOutput) (c : AdConcept)
    (h1 : (p.validation 1).isValid = true)
    (hc : p.concept = Except.ok c)
    (h : (runApp p input key0).result = some out) :
    out.opening_frame_prompt = c.openingFramePrompt ∧
    out.qc_notes = "QC passed on first attempt." := by
  obtain ⟨c', hc', hprompt, hnotes, _⟩ := runApp_result_inv p input key0 out h
  have hcc : c' = c := by
    rw [hc'] at hc
    exact Except.ok.inj hc
  subst hcc
  have hfix := qcLoop_first_valid p input.actorImage input.aspectRatio c' h1
  exact ⟨hprompt.trans hfix.1, hnotes.trans hfix.2⟩

/-- C10 witness: on the demo run the first attempt validates and the
output carries the untouched concept prompt and the first-attempt QC
note. -/
theorem first_attempt_pass_no_mutation_witness :
    (demoProvider.validation 1).isValid = true ∧
    demoProvider.concept = Except.ok demoConcept ∧
    (runApp demoProvider demoInput none).result = some demoOut ∧
    (demoOut.opening_frame_prompt = demoConcept.openingFramePrompt ∧
      demoOut.qc_notes = "QC passed on first attempt.") := by
  have hrun : (runApp demoProvider demoInput none).result = some demoOut := by decide
  exact ⟨rfl, rfl, hrun,
    first_attempt_pass_no_mutation demoProvider demoInput none demoOut demoConcept
      rfl rfl hrun⟩

/-! ### Progress step ordering (C7) -/

/-- Append two step-ordered progress blocks when the first ends at or
below a bound and the second starts at or above it. -/
theorem chain_stepRel_append {l1 l2 : List ProgressUpdate} (n : Nat)
    (h1 : List.Chain' stepRel l1) (h2 : List.Chain' stepRel l2)
    (hl : ∀ u ∈ l1.getLast?, u.step ≤ n)
    (hh : ∀ u ∈ l2.head?, n ≤ u.step) :
    List.Chain' stepRel (l1 ++ l2) := by
  rw [List.chain'_append]
  exact ⟨h1, h2, fun x hx y hy => Or.inl (le_trans (hl x hx) (hh y hy))⟩

/-- The last element of a block extended by one update is that update. -/
theorem lastLE_concat (l : List ProgressUpdate) (u : ProgressUpdate) (n : Nat)
    (h : u.step ≤ n) : ∀ v ∈ (l ++ [u]).getLast?, v.step ≤ n := by
  intro v hv
  rw [List.getLast?_concat] at hv
  simp only [Option.mem_def, Option.some.injEq] at hv
  subst hv
  exact h

/-- The last element of an appended pair comes from one of the two
parts. -/
theorem last_mem_append {l1 l2 : List ProgressUpdate} {u : ProgressUpdate}
    (hu : u ∈ (l1 ++ l2).getLast?) : u ∈ l1.getLast? ∨ u ∈ l2.getLast? := by
  rw [List.getLast?_append] at hu
  rcases ho : l2.getLast? with _ | v
  · rw [ho, Option.none_or] at hu
    exact Or.inl hu
  · rw [ho, show (some v).or l1.getLast? = some v from rfl] at hu
    exact Or.inr (ho ▸ hu)

/-- Bound the last element of an appended block by bounds on both
parts. -/
theorem lastLE_append {l1 l2 : List ProgressUpdate} {n : Nat}
    (h1 : ∀ u ∈ l1.getLast?, u.step ≤ n) (h2 : ∀ u ∈ l2.getLast?, u.step ≤ n) :
    ∀ u ∈ (l1 ++ l2).getLast?, u.step ≤ n := by
  intro u hu
  rcases last_mem_append hu with h | h
  · exact h1 u h
  · exact h2 u h

/-- The progress notifications the QC loop emits are step-ordered, start
at step 3, and end at step 4. -/
theorem qcLoop_progress_chain (p : Provider) (actorImg : Option ImageData)
    (asp : String) :
    ∀ (l : List Nat) (s : QCCore),
      List.Chain' stepRel (qcLoop p actorImg asp l s).progressDelta ∧
      (∀ u ∈ ((qcLoop p actorImg asp l s).progressDelta).head?, u.step = 3) ∧
      (∀ u ∈ ((qcLoop p actorImg asp l s).progressDelta).getLast?, u.step = 4) := by
  intro l
  induction l with
  | nil =>
    intro s
    refine ⟨List.chain'_nil, ?_, ?_⟩ <;> intro u hu <;> simp [qcLoop] at hu
  | cons i rest ih =>
    intro s
    cases hv : (p.validation i).isValid
    · simp only [qcLoop, hv, Bool.false_eq_true, if_false]
      obtain ⟨ch, hhead, hlast⟩ := ih
        ⟨s.prompt ++ fixSuffix (p.validation i).suggestion,
         (if i == 3 then finalFailMsg (p.validation i).suggestion
          else failMsg i (p.validation i).suggestion),
         some (qcFrame p actorImg asp i s.prompt),
         s.promptLog ++ [s.prompt ++ fixSuffix (p.validation i).suggestion]⟩
      refine ⟨?_, ?_, ?_⟩
      · rw [List.chain'_append]
        refine ⟨?_, ch, ?_⟩
        · exact List.chain'_pair.mpr (Or.inl (by norm_num))
        · intro x hx y hy
          simp only [List.getLast?_cons_cons, List.getLast?_singleton,
            Option.mem_def, Option.some.injEq] at hx
          subst hx
          exact Or.inr ⟨rfl, hhead y hy⟩
      · intro u hu
        simp only [List.cons_append, List.head?_cons, Option.mem_def,
          Option.some.injEq] at hu
        subst hu
        rfl
      · intro u hu
        rcases last_mem_append hu with h | h
        · simp only [List.getLast?_cons_cons, List.getLast?_singleton,
            Option.mem_def, Option.some.injEq] at h
          subst h
          rfl
        · exact hlast u h
    · simp only [qcLoop, hv, if_true]
      refine ⟨List.chain'_pair.mpr (Or.inl (by norm_num)), ?_, ?_⟩
      · intro u hu
        simp only [List.head?_cons, Option.mem_def, Option.some.injEq] at hu
        subst hu
        rfl
      · intro u hu
        simp only [List.getLast?_cons_cons, List.getLast?_singleton,
          Option.mem_def, Option.some.injEq] at hu
        subst hu
        rfl

/-- The video stage's forwarded messages all carry step 6 and are
step-ordered. -/
theorem chain_six_block (msgs : List String) :
    List.Chain' stepRel (msgs.map (fun m => (⟨6, m⟩ : ProgressUpdate))) ∧
    (∀ u ∈ (msgs.map (fun m => (⟨6, m⟩ : ProgressUpdate))).head?, u.step = 6) ∧
    (∀ u ∈ (msgs.map (fun m => (⟨6, m⟩ : ProgressUpdate))).getLast?, u.step = 6) := by
  induction msgs with
  | nil =>
    refine ⟨List.chain'_nil, ?_, ?_⟩ <;> intro u hu <;> simp at hu
  | cons m rest ih =>
    obtain ⟨ch, hh, hl⟩ := ih
    refine ⟨?_, ?_, ?_⟩
    · rw [List.map_cons, List.chain'_cons']
      exact ⟨fun y hy => Or.inl (le_of_eq (hh y hy).symm), ch⟩
    · intro u hu
      simp only [List.map_cons, List.head?_cons, Option.mem_def,
        Option.some.injEq] at hu
      subst hu
      rfl
    · intro u hu
      cases rest with
      | nil =>
        simp only [List.map_cons, List.map_nil, List.getLast?_singleton,
          Option.mem_def, Option.some.injEq] at hu
        subst hu
        rfl
      | cons b t =>
        rw [List.map_cons, List.map_cons, List.getLast?_cons_cons] at hu
        exact hl u (by rw [List.map_cons]; exact hu)

/-- Step ordering of the assembly stage: its two exits extend an ordered
prefix with step 8 and the final reset. -/
theorem finishStages_progress (p : Provider) (input : UserInput)
    (key0 : Option Bool) (c : AdConcept) (q : QCOut)
    (url veo vurl : String) (vo : Option String)
    (pr : List ProgressUpdate) (calls : List String)
    (hch : List.Chain' stepRel pr)
    (hlast : ∀ u ∈ pr.getLast?, u.step ≤ 8) :
    List.Chain' stepRel
      ((finishStages p input key0 c q url veo vurl vo pr calls).progress).dropLast ∧
    ((finishStages p input key0 c q url veo vurl vo pr calls).progress).getLast? =
      some ⟨0, ""⟩ := by
  have h8 : List.Chain' stepRel (pr ++ [⟨8, "Generating ad assets..."⟩]) := by
    refine chain_stepRel_append 8 hch (List.chain'_singleton _) hlast ?_
    intro u hu
    simp only [List.head?_cons, Option.mem_def, Option.some.injEq] at hu
    subst hu
    exact le_refl 8
  rcases ha : p.adAssets with m | assets <;>
    simp only [finishStages, ha, finishErr, finishOk] <;>
    exact ⟨by rw [List.dropLast_concat]; exact h8, by rw [List.getLast?_concat]⟩

/-- Step ordering of stages 2 through 8: starting from an ordered prefix
that ends at or below step 2, every exit of `runStages` yields a
step-ordered progress list (up to the reset) ending with the reset. -/
theorem runStages_progress (p : Provider) (input : UserInput) (key0 : Option Bool)
    (ia : String) (pr1 : List ProgressUpdate) (calls1 : List String)
    (hch : List.Chain' stepRel pr1)
    (hlast : ∀ u ∈ pr1.getLast?, u.step ≤ 2) :
    List.Chain' stepRel ((runStages p input key0 ia pr1 calls1).progress).dropLast ∧
    ((runStages p input key0 ia pr1 calls1).progress).getLast? = some ⟨0, ""⟩ := by
  have hch2 : List.Chain' stepRel (pr1 ++ [⟨2, "Generating ad concept..."⟩]) := by
    refine chain_stepRel_append 2 hch (List.chain'_singleton _) hlast ?_
    intro u hu
    simp only [List.head?_cons, Option.mem_def, Option.some.injEq] at hu
    subst hu
    exact le_refl 2
  have hlast2 : ∀ u ∈ (pr1 ++
      [(⟨2, "Generating ad concept..."⟩ : ProgressUpdate)]).getLast?, u.step ≤ 2 :=
    lastLE_concat _ _ _ (le_refl 2)
  rcases hc : p.concept with m | c
  · simp only [runStages, hc, finishErr]
    exact ⟨by rw [List.dropLast_concat]; exact hch2, by rw [List.getLast?_concat]⟩
  obtain ⟨chd, hdh, hdl⟩ := qcLoop_progress_chain p input.actorImage input.aspectRatio
    [1, 2, 3] (qcInit c)
  have hch3 : List.Chain' stepRel ((pr1 ++ [⟨2, "Generating ad concept..."⟩]) ++
      (qcLoop p input.actorImage input.aspectRatio [1, 2, 3]
        (qcInit c)).progressDelta) := by
    refine chain_stepRel_append 3 hch2 chd ?_ ?_
    · intro u hu
      exact le_trans (hlast2 u hu) (by norm_num)
    · intro u hu
      exact le_of_eq (hdh u hu).symm
  have hlast3 : ∀ u ∈ ((pr1 ++ [(⟨2, "Generating ad concept..."⟩ : ProgressUpdate)]) ++
      (qcLoop p input.actorImage input.aspectRatio [1, 2, 3]
        (qcInit c)).progressDelta).getLast?, u.step ≤ 4 := by
    refine lastLE_append ?_ ?_
    · intro u hu
      exact le_trans (hlast2 u hu) (by norm_num)
    · intro u hu
      exact le_of_eq (hdl u hu)
  rcases hqf : (qcLoop p input.actorImage input.aspectRatio [1, 2, 3]
      (qcInit c)).core.frame with _ | f
  · simp only [runStages, hc, hqf, finishErr]
    exact ⟨by rw [List.dropLast_concat]; exact hch3, by rw [List.getLast?_concat]⟩
  have hch4 : List.Chain' stepRel (((pr1 ++ [⟨2, "Generating ad concept..."⟩]) ++
      (qcLoop p input.actorImage input.aspectRatio [1, 2, 3]
        (qcInit c)).progressDelta) ++ [⟨5, "Writing video script..."⟩]) := by
    refine chain_stepRel_append 5 hch3 (List.chain'_singleton _) ?_ ?_
    · intro u hu
      exact le_trans (hlast3 u hu) (by norm_num)
    · intro u hu
      simp only [List.head?_cons, Option.mem_def, Option.some.injEq] at hu
      subst hu
      exact le_refl 5
  rcases hveo : p.veoPrompt with m | veo
  · simp only [runStages, hc, hqf, hveo, finishErr]
    exact ⟨by rw [List.dropLast_concat]; exact hch4, by rw [List.getLast?_concat]⟩
  have hch4b : List.Chain' stepRel ((((pr1 ++ [⟨2, "Generating ad concept..."⟩]) ++
      (qcLoop p input.actorImage input.aspectRatio [1, 2, 3]
        (qcInit c)).progressDelta) ++ [⟨5, "Writing video script..."⟩]) ++
      [⟨6, "Generating video (this may take a few minutes)..."⟩]) := by
    refine chain_stepRel_append 6 hch4 (List.chain'_singleton _)
      (lastLE_concat _ _ _ (by norm_num)) ?_
    intro u hu
    simp only [List.head?_cons, Option.mem_def, Option.some.injEq] at hu
    subst hu
    exact le_refl 6
  obtain ⟨chsix, hsixh, hsixl⟩ := chain_six_block (generateVideoRun p).messages
  have hch5 : List.Chain' stepRel (((((pr1 ++ [⟨2, "Generating ad concept..."⟩]) ++
      (qcLoop p input.actorImage input.aspectRatio [1, 2, 3]
        (qcInit c)).progressDelta) ++ [⟨5, "Writing video script..."⟩]) ++
      [⟨6, "Generating video (this may take a few minutes)..."⟩]) ++
      (generateVideoRun p).messages.map (fun m => ⟨6, m⟩)) := by
    refine chain_stepRel_append 6 hch4b chsix
      (lastLE_concat _ _ _ (le_refl 6)) ?_
    intro u hu
    exact le_of_eq (hsixh u hu).symm
  have hlast5 : ∀ u ∈ (((((pr1 ++ [(⟨2, "Generating ad concept..."⟩ : ProgressUpdate)]) ++
      (qcLoop p input.actorImage input.aspectRatio [1, 2, 3]
        (qcInit c)).progressDelta) ++ [(⟨5, "Writing video script..."⟩ : ProgressUpdate)]) ++
      [(⟨6, "Generating video (this may take a few minutes)..."⟩ : ProgressUpdate)]) ++
      (generateVideoRun p).messages.map
        (fun m => (⟨6, m⟩ : ProgressUpdate))).getLast?, u.step ≤ 6 := by
    refine lastLE_append (lastLE_concat _ _ _ (le_refl 6)) ?_
    intro u hu
    exact le_of_eq (hsixl u hu)
  rcases hvid : (generateVideoRun p).outcome with m | vurl
  · simp only [runStages, hc, hqf, hveo, hvid, finishErr]
    exact ⟨by rw [List.dropLast_concat]; exact hch5, by rw [List.getLast?_concat]⟩
  cases hvo : input.generateVoiceover
  · simp only [runStages, hc, hqf, hveo, hvid, hvo]
    refine finishStages_progress _ _ _ _ _ _ _ _ _ _ _ hch5 ?_
    intro u hu
    exact le_trans (hlast5 u hu) (by norm_num)
  · have hch6 : List.Chain' stepRel ((((((pr1 ++
        [⟨2, "Generating ad concept..."⟩]) ++
        (qcLoop p input.actorImage input.aspectRatio [1, 2, 3]
          (qcInit c)).progressDelta) ++ [⟨5, "Writing video script..."⟩]) ++
        [⟨6, "Generating video (this may take a few minutes)..."⟩]) ++
        (generateVideoRun p).messages.map (fun m => ⟨6, m⟩)) ++
        [⟨7, "Generating voiceover..."⟩]) := by
      refine chain_stepRel_append 7 hch5 (List.chain'_singleton _) ?_ ?_
      · intro u hu
        exact le_trans (hlast5 u hu) (by norm_num)
      · intro u hu
        simp only [List.head?_cons, Option.mem_def, Option.some.injEq] at hu
        subst hu
        exact le_refl 7
    rcases hsp : p.speechAudio (voText input) with _ | bytes
    · simp only [runStages, hc, hqf, hveo, hvid, hvo, hsp, finishErr]
      exact ⟨by rw [List.dropLast_concat]; exact hch6, by rw [List.getLast?_concat]⟩
    · simp only [runStages, hc, hqf, hveo, hvid, hvo, hsp]
      refine finishStages_progress _ _ _ _ _ _ _ _ _ _ _ hch6 ?_
      exact lastLE_concat _ _ _ (by norm_num)

/-- C7 (amended): within one run every consecutive pair of progress
updates keeps a non-decreasing step index, except that each QC retry
attempt returns from the validation notification (step 4) to the next
attempt's generation notification (step 3); and the final progress state
of every run — success or error — is the idle reset `⟨0, ""⟩`. -/
theorem progress_step_pattern (p : Provider) (input : UserInput)
    (key0 : Option Bool) :
    List.Chain' stepRel (((runApp p input key0).progress).dropLast) ∧
    ((runApp p input key0).progress).getLast? = some ⟨0, ""⟩ := by
  have hone : List.Chain' stepRel [(⟨1, "Analyzing images..."⟩ : ProgressUpdate)] :=
    List.chain'_singleton _
  have honeLast :
      ∀ u ∈ ([(⟨1, "Analyzing images..."⟩ : ProgressUpdate)]).getLast?, u.step ≤ 2 := by
    intro u hu
    simp only [List.getLast?_singleton, Option.mem_def, Option.some.injEq] at hu
    subst hu
    norm_num
  rcases hpi : input.productImage with _ | img
  · simp only [runApp, hpi, finishErr]
    exact ⟨by rw [List.dropLast_concat]; exact hone, by rw [List.getLast?_concat]⟩
  rcases hpa : p.productAnalysis with m | pa
  · simp only [runApp, hpi, hpa, finishErr]
    exact ⟨by rw [List.dropLast_concat]; exact hone, by rw [List.getLast?_concat]⟩
  rcases hai : input.actorImage with _ | actor
  · simp only [runApp, hpi, hpa, hai]
    exact runStages_progress _ _ _ _ _ _ hone honeLast
  · rcases haa : p.actorAnalysis with m | aa
    · simp only [runApp, hpi, hpa, hai, haa, finishErr]
      exact ⟨by rw [List.dropLast_concat]; exact hone, by rw [List.getLast?_concat]⟩
    · simp only [runApp, hpi, hpa, hai, haa]
      exact runStages_progress _ _ _ _ _ _ hone honeLast

/-- C7 counterexample: on a run whose first QC attempt fails validation,
the progress sequence contains the step-4 validation notification of
attempt 1 immediately followed by the step-3 generation notification of
attempt 2, so the claimed globally non-decreasing step order (up to the
final reset) is violated. -/
theorem progress_monotone_cex :
    ¬ ((((runApp retryProvider demoInput none).progress).dropLast).Pairwise
          (fun a b => a.step ≤ b.step) ∧
        ((runApp retryProvider demoInput none).progress).getLast? =
          some ⟨0, ""⟩) := by
  decide

/-- The video stage never calls the validation endpoint. -/
theorem videoRun_validate_count (p : Provider) :
    ((generateVideoRun p).calls).count "validateImage" = 0 := by
  cases he : p.videoError <;> cases hu : p.videoUri <;> cases hf : p.fetchOk <;>
    simp [generateVideoRun, he, hu, hf, List.count_append, List.count_cons,
      List.count_replicate, List.count_nil]

/-- The assembly stage adds no validation call. -/
theorem finishStages_validate_count (p : Provider) (input : UserInput)
    (key0 : Option Bool) (c : AdConcept) (q : QCOut)
    (url veo vurl : String) (vo : Option String)
    (pr : List ProgressUpdate) (calls : List String)
    (h : calls.count "validateImage" ≤ 3) :
    ((finishStages p input key0 c q url veo vurl vo pr calls).calls).count
      "validateImage" ≤ 3 := by
  have hz : (["generateAdAssets"] : List String).count "validateImage" = 0 := by decide
  rcases ha : p.adAssets with m | assets <;>
    simp only [finishStages, ha, finishErr, finishOk] <;>
    rw [List.count_append, hz] <;> omega

/-- Stages 2 through 8 perform at most 3 validation calls: all of them
come from the QC loop. -/
theorem runStages_validate_count (p : Provider) (input : UserInput)
    (key0 : Option Bool) (ia : String) (pr1 : List ProgressUpdate)
    (calls1 : List String) (h1 : calls1.count "validateImage" = 0) :
    ((runStages p input key0 ia pr1 calls1).calls).count "validateImage" ≤ 3 := by
  have hz1 : (["generateAdConcept"] : List String).count "validateImage" = 0 := by decide
  have hz2 : (["generateVideoDirectorPrompt"] : List String).count "validateImage" = 0 := by
    decide
  have hz3 : (["generateSpeech"] : List String).count "validateImage" = 0 := by decide
  rcases hc : p.concept with m | c
  · simp only [runStages, hc, finishErr]
    rw [List.count_append, h1, hz1]
    omega
  obtain ⟨hval, hbound, _⟩ := qcLoop_counts p input.actorImage input.aspectRatio c
  have hv : ((qcLoop p input.actorImage input.aspectRatio [1, 2, 3]
      (qcInit c)).callsDelta).count "validateImage" ≤ 3 := by
    rw [hval]; exact hbound
  have hvid := videoRun_validate_count p
  rcases hqf : (qcLoop p input.actorImage input.aspectRatio [1, 2, 3]
      (qcInit c)).core.frame with _ | f
  · simp only [runStages, hc, hqf, finishErr]
    rw [List.count_append, List.count_append, h1, hz1]
    omega
  rcases hveo : p.veoPrompt with m | veo
  · simp only [runStages, hc, hqf, hveo, finishErr]
    rw [List.count_append, List.count_append, List.count_append, h1, hz1, hz2]
    omega
  rcases hvo : (generateVideoRun p).outcome with m | vurl
  · simp only [runStages, hc, hqf, hveo, hvo, finishErr]
    rw [List.count_append, List.count_append, List.count_append, List.count_append,
      h1, hz1, hz2, hvid]
    omega
  cases hgen : input.generateVoiceover
  · simp only [runStages, hc, hqf, hveo, hvo, hgen]
    refine finishStages_validate_count _ _ _ _ _ _ _ _ _ _ _ ?_
    rw [List.count_append, List.count_append, List.count_append, List.count_append,
      h1, hz1, hz2, hvid]
    omega
  · rcases hsp : p.speechAudio (voText input) with _ | bytes
    · simp only [runStages, hc, hqf, hveo, hvo, hgen, hsp, finishErr]
      rw [List.count_append, List.count_append, List.count_append, List.count_append,
        List.count_append, h1, hz1, hz2, hvid, hz3]
      omega
    · simp only [runStages, hc, hqf, hveo, hvo, hgen, hsp]
      refine finishStages_validate_count _ _ _ _ _ _ _ _ _ _ _ ?_
      rw [List.count_append, List.count_append, List.count_append, List.count_append,
        List.count_append, h1, hz1, hz2, hvid, hz3]
      omega

/-- C1: over the three scheduled attempts, the QC loop performs exactly
`attemptsUsed p` validation calls and exactly as many frame-generation
calls — it validates at most 3 times, and once the first valid verdict
arrives at attempt `N` it stops immediately, so no generation or
validation call of attempt `N + 1` is made; consequently no run of the
pipeline ever performs more than 3 validation calls. -/
theorem qc_validation_bounded (p : Provider) (actorImg : Option ImageData)
    (asp : String) (c : AdConcept) :
    ((qcLoop p actorImg asp [1, 2, 3] (qcInit c)).callsDelta.count "validateImage" =
      attemptsUsed p ∧
    attemptsUsed p ≤ 3 ∧
    (qcLoop p actorImg asp [1, 2, 3]
          (qcInit c)).callsDelta.count "generateOpeningFrameWithActor" +
      (qcLoop p actorImg asp [1, 2, 3] (qcInit c)).callsDelta.count "generateImage" =
      attemptsUsed p) ∧
    ∀ (input : UserInput) (key0 : Option Bool),
      ((runApp p input key0).calls).count "validateImage" ≤ 3 := by
  refine ⟨qcLoop_counts p actorImg asp c, ?_⟩
  intro input key0
  rcases hpi : input.productImage with _ | img
  · simp only [runApp, hpi, finishErr]
    decide
  rcases hpa : p.productAnalysis with m | pa
  · simp only [runApp, hpi, hpa, finishErr]
    decide
  rcases hai : input.actorImage with _ | actor
  · simp only [runApp, hpi, hpa, hai]
    exact runStages_validate_count p input key0 _ _ _ (by decide)
  · rcases haa : p.actorAnalysis with m | aa
    · simp only [runApp, hpi, hpa, hai, haa, finishErr]
      decide
    · simp only [runApp, hpi, hpa, hai, haa]
      exact runStages_validate_count p input key0 _ _ _ (by decide)
